import Mathlib

/-!
Shallow embedding of the elmerfs core (AntidoteDB/elmerfs): the driver
(`src/driver.rs`), the FUSE adapter (`src/fs.rs`), the operation enum
(`src/op.rs`) and the dispatch loop (`src/dispatch.rs`).

The backend store is modelled as explicit state; every driver operation is a
pure function from a store (plus the clock value `t` captured once per
operation, and the freshly allocated ino where the source calls `next_ino`)
to an outcome carrying the result, the committed store and the fate of the
transaction.  The entity codecs (`crate::model::{inode, dir, symlink}`) and
the page writer (`src/driver/page.rs`) are not part of the provided sources;
their definitions below are modelled from the spec (sections 3, 4.3 and 4.4)
and are marked as such in their doc comments.

Machine integers are modelled as `Nat`; where overflow or wrapping of a u64
matters (the size arithmetic of `write`, the length truncation of `read`)
the reduction modulo `2 ^ 64` or the saturating/underflowing subtraction is
made explicit.  A `u64` subtraction that would underflow (a panic in a debug
build, a capacity-overflow abort through `Vec::with_capacity` in a release
build) is modelled by an `Option` result, `none` standing for the crash.
-/

/-- Width of the machine integers the backend stores (`u64`). -/
def U64 : Nat := 2 ^ 64

/-- POSIX errnos used by the driver (`nix::errno::Errno`). -/
inductive Errno where
  | ENOENT
  | EEXIST
  | EINVAL
  | EIO
  | ENOSPC
  deriving DecidableEq, Repr

/-- `inode::Kind` (spec section 3): the tagged kind of an inode. -/
inductive Kind where
  | Directory
  | Regular
  | Symlink
  deriving DecidableEq, Repr

/-- `inode::Owner`: uid/gid pair. -/
structure Owner where
  uid : Nat
  gid : Nat
  deriving DecidableEq, Repr

/-- The mutable field set of an inode, written as one batch by
`inode::update_stats` (spec section 4.3: `{mode, owner, size, atime, mtime,
ctime, nlink}`). -/
structure Stats where
  mode : Nat
  owner : Owner
  size : Nat
  atime : Nat
  ctime : Nat
  mtime : Nat
  nlink : Nat
  deriving DecidableEq, Repr

/-- `inode::Inode` (src/driver.rs uses it through `crate::model::inode`):
field list from spec section 3.  Times are wall-clock durations collapsed to
a single `Nat`. -/
structure Inode where
  ino : Nat
  kind : Kind
  parent : Nat
  atime : Nat
  ctime : Nat
  mtime : Nat
  owner : Owner
  mode : Nat
  size : Nat
  nlink : Nat
  deriving DecidableEq, Repr

/-- A directory entry `dir::Entry{name, ino, kind}` (spec section 3). -/
structure Entry where
  name : String
  ino : Nat
  kind : Kind
  deriving DecidableEq, Repr

/-- Modelled from the spec: the stored form of an inode
(`crate::model::inode`, not under src/).  The inode is a CRDT map of
registers; `inode::create` writes every field while `inode::update_stats`
writes only the mutable `Stats` set, so the identity fields (kind, parent)
and the stats can be present independently.  `decode` succeeds iff all
required fields are present (spec section 4.3).  The stored `ino` register
always equals the key in every reachable state and is represented by the
key itself. -/
structure InodeEntity where
  ident : Option (Kind × Nat)
  stats : Option Stats
  deriving DecidableEq, Repr

/-- The backend bucket: one authoritative key space per entity kind
(spec sections 3 and 6).  Directory entities are kept as entry lists in map
iteration order (add-wins map, iteration order unspecified by the spec;
insertion order is used here). -/
structure Store where
  inodes : Nat → Option InodeEntity
  dirs : Nat → Option (List Entry)
  symlinks : Nat → Option String
  pages : Nat → Nat → Option (List Nat)

/-- Point update of a keyed map. -/
def updf {α : Type} (f : Nat → Option α) (k : Nat) (v : Option α) : Nat → Option α :=
  fun i => if i = k then v else f i

/-- Fate of the backend transaction opened by an operation: committed,
explicitly aborted, or left open (returned without either call). -/
inductive TxFate where
  | committed
  | aborted
  | leftOpen
  deriving DecidableEq, Repr

/-- Outcome of one driver operation: the reply value, the store visible
after the operation (the original store when the transaction aborted) and
the fate of the transaction. -/
structure OpOut (α : Type) where
  res : Except Errno α
  store : Store
  fate : TxFate

/-- Outcome of `Driver::make_root`, additionally counting the update
operations issued inside the transaction. -/
structure RootOut where
  store : Store
  fate : TxFate
  updatesIssued : Nat

/-- `driver::ReadDirEntry` (src/driver.rs:938-943). -/
structure ReadDirEntry where
  ino : Nat
  kind : Kind
  name : String
  deriving DecidableEq, Repr

/-- Outcome at the fs.rs layer: what is written on the kernel reply, and the
resulting store. -/
structure FsOut (α : Type) where
  reply : Except Errno α
  store : Store

def ROOT_INO : Nat := 1

def PAGE_SIZE : Nat := 4 * 1024

/-- Modelled from the spec: `inode::statsOf` is the mutable field set of an
in-memory inode (spec section 4.3). -/
def statsOf (i : Inode) : Stats :=
  ⟨i.mode, i.owner, i.size, i.atime, i.ctime, i.mtime, i.nlink⟩

/-- Modelled from the spec: `inode::create(i)` writes a register for every
field of the inode (spec section 4.3). -/
def inodeCreate (s : Store) (i : Inode) : Store :=
  { s with inodes := updf s.inodes i.ino (some ⟨some (i.kind, i.parent), some (statsOf i)⟩) }

/-- Modelled from the spec: `inode::update_stats(i)` writes only the mutable
set `{mode, owner, size, atime, mtime, ctime, nlink}` (spec section 4.3).
Updating an absent CRDT map creates it holding only those registers, so the
identity fields stay absent. -/
def inodeUpdateStats (s : Store) (i : Inode) : Store :=
  let ent : InodeEntity := ⟨(s.inodes i.ino).bind (fun e => e.ident), some (statsOf i)⟩
  { s with inodes := updf s.inodes i.ino (some ent) }

/-- Modelled from the spec: `inode::incr_link_count(ino, n)` is a counter
delta on the `nlink` field (spec section 4.3). -/
def inodeIncrLink (s : Store) (ino n : Nat) : Store :=
  let ent := (s.inodes ino).map (fun e =>
    (⟨e.ident, e.stats.map (fun st => { st with nlink := st.nlink + n })⟩ : InodeEntity))
  { s with inodes := updf s.inodes ino ent }

/-- Modelled from the spec: `inode::remove(ino)` resets the entire inode map
(spec section 4.3). -/
def inodeRemove (s : Store) (ino : Nat) : Store :=
  { s with inodes := updf s.inodes ino none }

/-- Modelled from the spec: `inode::decode` returns `some` iff all required
fields are present (spec section 4.3); it is the driver's existence test. -/
def inodeDecode (s : Store) (ino : Nat) : Option Inode :=
  match s.inodes ino with
  | some ⟨some (k, p), some st⟩ =>
      some ⟨ino, k, p, st.atime, st.ctime, st.mtime, st.owner, st.mode, st.size, st.nlink⟩
  | _ => none

/-- Modelled from the spec: `dir::create(view, parent, self)` seeds the map
with the `.` self entry (spec section 4.3). -/
def dirCreate (s : Store) (selfIno : Nat) : Store :=
  { s with dirs := updf s.dirs selfIno (some [⟨".", selfIno, Kind.Directory⟩]) }

/-- Lookup of a directory entry list by (canonical) name, the model of
`entries.get(&name)`.  Views are collapsed: a canonical name is the plain
string. -/
def entGet (l : List Entry) (n : String) : Option Entry :=
  l.find? (fun e => decide (e.name = n))

/-- Modelled from the spec: `dir::add_entry` keys the add-wins map by
canonical name; an add overwrites any entry of the same name and appends at
the end of the iteration order. -/
def dirAddEntry (s : Store) (dirIno : Nat) (e : Entry) : Store :=
  let l := (((s.dirs dirIno).getD []).filter (fun x => !(x.name == e.name))) ++ [e]
  { s with dirs := updf s.dirs dirIno (some l) }

/-- Modelled from the spec: `dir::remove_entry` removes the entry of the
given canonical name. -/
def dirRemoveEntry (s : Store) (dirIno : Nat) (n : String) : Store :=
  let l := (s.dirs dirIno).map (fun l => l.filter (fun x => !(x.name == n)))
  { s with dirs := updf s.dirs dirIno l }

/-- Modelled from the spec: `dir::remove` resets the directory entity. -/
def dirRemove (s : Store) (ino : Nat) : Store :=
  { s with dirs := updf s.dirs ino none }

/-- Modelled from the spec: `symlink::remove` resets the symlink register
(a safe no-op when absent). -/
def symlinkRemove (s : Store) (ino : Nat) : Store :=
  { s with symlinks := updf s.symlinks ino none }

/-- Modelled from the spec: one read-modify-write of a single page
(spec section 4.4): the old content is kept before `off` (zero-padded when
shorter than `off`), overwritten by `data`, and kept after `off + len`. -/
def pageMerge (old : List Nat) (off : Nat) (data : List Nat) : List Nat :=
  ((old ++ List.replicate (off - old.length) 0).take off) ++ data ++ old.drop (off + data.length)

/-- Modelled from the spec: `PageWriter::write` splits `[offset,
offset+len)` into `PAGE_SIZE`-aligned spans and read-modify-writes each
touched page (spec section 4.4, `src/driver/page.rs` is not under src/).
Structural recursion on a fuel equal to the number of bytes left; every step
consumes at least one byte, so the fuel never runs out. -/
def pagesWriteAux (ino : Nat) : Nat → (Nat → Nat → Option (List Nat)) → Nat → List Nat →
    Nat → Nat → Option (List Nat)
  | 0, pg, _, _ => pg
  | fuel + 1, pg, offset, data =>
      match data with
      | [] => pg
      | _ :: _ =>
        let p := offset / PAGE_SIZE
        let localOff := offset % PAGE_SIZE
        let chunkLen := min (PAGE_SIZE - localOff) data.length
        let merged := pageMerge ((pg ino p).getD []) localOff (data.take chunkLen)
        let pg1 := fun i q => if i = ino ∧ q = p then some merged else pg i q
        pagesWriteAux ino fuel pg1 (offset + chunkLen) (data.drop chunkLen)

/-- Modelled from the spec: page writes of `PageWriter::write`. -/
def pagesWrite (pg : Nat → Nat → Option (List Nat)) (ino offset : Nat) (data : List Nat) :
    Nat → Nat → Option (List Nat) :=
  pagesWriteAux ino data.length pg offset data

/-- Modelled from the spec: `PageWriter::read` fetches every touched page
and concatenates the requested slice (spec section 4.4).  Per the design
note of spec section 9, holes are not zero-filled: a short or absent page
contributes only the bytes it holds. -/
def pagesReadAux (ino : Nat) (pg : Nat → Nat → Option (List Nat)) :
    Nat → Nat → Nat → List Nat
  | 0, _, _ => []
  | fuel + 1, offset, len =>
      if len = 0 then []
      else
        let p := offset / PAGE_SIZE
        let localOff := offset % PAGE_SIZE
        let chunkLen := min (PAGE_SIZE - localOff) len
        let content := (pg ino p).getD []
        ((content.drop localOff).take chunkLen) ++
          pagesReadAux ino pg fuel (offset + chunkLen) (len - chunkLen)

/-- Modelled from the spec: page reads of `PageWriter::read`. -/
def pagesRead (pg : Nat → Nat → Option (List Nat)) (ino offset len : Nat) : List Nat :=
  pagesReadAux ino pg len offset len

/-- `Driver::make_root` (src/driver.rs:133-173): under an exclusive lock on
the root inode key, test existence via `attr_of`; when the root decodes,
commit without issuing any update; when it is absent, create the root inode
(Directory, parent 1, owner 0:0, mode 0o777, size 0, nlink 3) and the root
directory entity, then commit. -/
def Driver.makeRoot (s : Store) (t : Nat) : RootOut :=
  match inodeDecode s ROOT_INO with
  | some _ => ⟨s, TxFate.committed, 0⟩
  | none =>
      let rootInode : Inode := ⟨ROOT_INO, Kind.Directory, 1, t, t, t, ⟨0, 0⟩, 0o777, 0, 3⟩
      ⟨dirCreate (inodeCreate s rootInode) ROOT_INO, TxFate.committed, 2⟩

/-- `Driver::setattr` (src/driver.rs:188-226): read the inode (abort with
ENOENT when it does not decode), overwrite each present optional field,
persist `update_stats`, commit and return the new attributes. -/
def Driver.setattr (s : Store) (ino : Nat) (mode uid gid size atime mtime : Option Nat) :
    OpOut Inode :=
  match inodeDecode s ino with
  | none => ⟨Except.error Errno.ENOENT, s, TxFate.aborted⟩
  | some ind =>
      let ind1 := { ind with
        mode := mode.getD ind.mode
        owner := ⟨uid.getD ind.owner.uid, gid.getD ind.owner.gid⟩
        size := size.getD ind.size
        atime := atime.getD ind.atime
        mtime := mtime.getD ind.mtime }
      ⟨Except.ok ind1, inodeUpdateStats s ind1, TxFate.committed⟩

/-- `Driver::readdir` (src/driver.rs:269-294): `assert!(offset >= 0)` —
a negative offset panics, modelled by `none` — then read the directory
(abort with ENOENT when the entity is absent) and return the entries from
`offset` onward; the `ino` field of every returned entry is the directory's
own ino argument (src/driver.rs:284). -/
def Driver.readdir (s : Store) (ino : Nat) (offset : Int) :
    Option (OpOut (List ReadDirEntry)) :=
  if offset < 0 then none
  else
    match s.dirs ino with
    | none => some ⟨Except.error Errno.ENOENT, s, TxFate.aborted⟩
    | some entries =>
        let mapped := (entries.drop offset.toNat).map (fun e =>
          (⟨ino, e.kind, e.name⟩ : ReadDirEntry))
        some ⟨Except.ok mapped, s, TxFate.committed⟩

/-- `Driver::mknod` (src/driver.rs:417-485): read parent inode and
directory (each missing decode aborts with ENOENT), abort with EEXIST when
the name is present, otherwise create a Regular inode (size 0, nlink 1)
under the freshly allocated `newIno`, add the parent entry, bump the
parent's size and times, and commit.  `newIno` stands for the value of
`self.next_ino()`; `rdev` is ignored by the source. -/
def Driver.mknod (s : Store) (t newIno : Nat) (owner : Owner) (mode parentIno : Nat)
    (name : String) (_rdev : Nat) : OpOut Inode :=
  match inodeDecode s parentIno with
  | none => ⟨Except.error Errno.ENOENT, s, TxFate.aborted⟩
  | some parent =>
      match s.dirs parentIno with
      | none => ⟨Except.error Errno.ENOENT, s, TxFate.aborted⟩
      | some entries =>
          if (entGet entries name).isSome then
            ⟨Except.error Errno.EEXIST, s, TxFate.aborted⟩
          else
            let ind : Inode := ⟨newIno, Kind.Regular, parentIno, t, t, t, owner, mode, 0, 1⟩
            let parent1 := { parent with mtime := t, atime := t, size := parent.size + 1 }
            let s1 := inodeCreate
              (dirAddEntry (inodeUpdateStats s parent1) parentIno ⟨name, newIno, Kind.Regular⟩)
              ind
            ⟨Except.ok ind, s1, TxFate.committed⟩

/-- The size arithmetic of `Driver::write` (src/driver.rs:555-560):
`wrote_above_size = (offset + bytes.len()).saturating_sub(inode.size)`.
The u64 addition is reduced modulo `2 ^ 64` (release wrapping semantics);
the saturating subtraction is `Nat` truncated subtraction. -/
def wroteAboveSize (size offset len : Nat) : Nat :=
  ((offset + len) % U64) - size

/-- The committed size of `Driver::write`: `inode.size += wrote_above_size`
on a u64 register. -/
def writeNewSize (size offset len : Nat) : Nat :=
  (size + wroteAboveSize size offset len) % U64

/-- `Driver::write` (src/driver.rs:544-568): issue the page writes, then
read the inode (abort with ENOENT when it does not decode, discarding the
draft page writes), update atime/mtime and the size by
`wrote_above_size`, persist `update_stats` and commit. -/
def Driver.write (s : Store) (t ino : Nat) (bytes : List Nat) (offset : Nat) : OpOut Unit :=
  let pg1 := pagesWrite s.pages ino offset bytes
  match inodeDecode s ino with
  | none => ⟨Except.error Errno.ENOENT, s, TxFate.aborted⟩
  | some ind =>
      let ind1 := { ind with atime := t, mtime := t,
                             size := writeNewSize ind.size offset bytes.length }
      let s1 := inodeUpdateStats { s with pages := pg1 } ind1
      ⟨Except.ok (), s1, TxFate.committed⟩

/-- `Driver::read` (src/driver.rs:570-598): read the inode (abort with
ENOENT when it does not decode), compute `end = min(size, offset + len)`
and `truncated_len = end - offset` — a u64 subtraction that crashes when
`end < offset` (panic in debug, capacity-overflow abort through
`Vec::with_capacity` in release), modelled by `none` — then fetch the pages
for the full requested `len` (the source passes `len`, not
`truncated_len`, to `PageWriter::read` and returns the buffer untruncated)
and commit.  The atime update is commented out in the source (FIXME at
src/driver.rs:590-594). -/
def Driver.read (s : Store) (ino offset len : Nat) : Option (OpOut (List Nat)) :=
  match inodeDecode s ino with
  | none => some ⟨Except.error Errno.ENOENT, s, TxFate.aborted⟩
  | some ind =>
      let e := min ind.size (offset + len)
      if e < offset then none
      else some ⟨Except.ok (pagesRead s.pages ino offset len), s, TxFate.committed⟩

/-- `Driver::rename` (src/driver.rs:600-720): decode both parent inodes and
both directories, the source entry and the source inode (each failure
aborts with ENOENT); decode the target inode when a target entry exists;
apply the target-removal rules (empty directory target: remove its inode,
its dir entity and its entry; otherwise target with nlink == 1: remove its
inode, its entry and its symlink register); then bump the new parent's
size, drop the old parent's size, set times, remove the source entry and
add the new entry carrying the source ino and the source inode's kind;
commit.  Updates are applied in the order the source issues them. -/
def Driver.rename (s : Store) (t parentIno : Nat) (name : String) (newParentIno : Nat)
    (newName : String) : OpOut Unit :=
  match inodeDecode s parentIno with
  | none => ⟨Except.error Errno.ENOENT, s, TxFate.aborted⟩
  | some parent =>
  match inodeDecode s newParentIno with
  | none => ⟨Except.error Errno.ENOENT, s, TxFate.aborted⟩
  | some newParent =>
  match s.dirs parentIno with
  | none => ⟨Except.error Errno.ENOENT, s, TxFate.aborted⟩
  | some parentEntries =>
  match s.dirs newParentIno with
  | none => ⟨Except.error Errno.ENOENT, s, TxFate.aborted⟩
  | some newParentEntries =>
  match entGet parentEntries name with
  | none => ⟨Except.error Errno.ENOENT, s, TxFate.aborted⟩
  | some entry =>
  match inodeDecode s entry.ino with
  | none => ⟨Except.error Errno.ENOENT, s, TxFate.aborted⟩
  | some inode0 =>
      let targetEntry := entGet newParentEntries newName
      let target := targetEntry.bind (fun te => inodeDecode s te.ino)
      let s1 :=
        match targetEntry, target with
        | some te, some tgt =>
            if tgt.kind = Kind.Directory ∧ tgt.size = 0 then
              dirRemoveEntry (dirRemove (inodeRemove s te.ino) te.ino) newParentIno te.name
            else if tgt.nlink = 1 then
              symlinkRemove (dirRemoveEntry (inodeRemove s tgt.ino) newParentIno te.name) tgt.ino
            else s
        | _, _ => s
      let newParent1 := { newParent with size := newParent.size + 1, atime := t, mtime := t }
      let parent1 := { parent with size := parent.size - 1, atime := t, mtime := t }
      let inode1 := { inode0 with atime := t }
      let newDentry : Entry := ⟨newName, entry.ino, inode0.kind⟩
      let s2 := dirAddEntry
        (dirRemoveEntry
          (inodeUpdateStats (inodeUpdateStats (inodeUpdateStats s1 parent1) newParent1) inode1)
          parentIno entry.name)
        newParentIno newDentry
      ⟨Except.ok (), s2, TxFate.committed⟩

/-- `Driver::link` (src/driver.rs:722-780): decode the linked inode, the
new parent inode and the new parent directory (each failure aborts with
ENOENT); when the new name is already present, return EEXIST — the source
returns on this path without calling `tx.abort()` (src/driver.rs:758-760),
so the transaction is left open; otherwise update the parent's times, add
an entry that always carries `Kind::Regular` (src/driver.rs:771),
increment the link count of `ino` and commit, returning the locally
incremented nlink. -/
def Driver.link (s : Store) (t ino newParentIno : Nat) (newName : String) : OpOut Inode :=
  match inodeDecode s ino with
  | none => ⟨Except.error Errno.ENOENT, s, TxFate.aborted⟩
  | some inode0 =>
  match inodeDecode s newParentIno with
  | none => ⟨Except.error Errno.ENOENT, s, TxFate.aborted⟩
  | some parent =>
  match s.dirs newParentIno with
  | none => ⟨Except.error Errno.ENOENT, s, TxFate.aborted⟩
  | some entries =>
      if (entGet entries newName).isSome then
        ⟨Except.error Errno.EEXIST, s, TxFate.leftOpen⟩
      else
        let parent1 := { parent with mtime := t, atime := t }
        let s1 := inodeIncrLink
          (dirAddEntry (inodeUpdateStats s parent1) newParentIno ⟨newName, ino, Kind.Regular⟩)
          ino 1
        ⟨Except.ok { inode0 with nlink := inode0.nlink + 1 }, s1, TxFate.committed⟩

/-- `Elmerfs::read` (src/fs.rs:306-325): a negative offset is answered with
EINVAL on the reply before anything reaches the driver; otherwise the
driver result (or its crash, `none`) is relayed. -/
def fsRead (s : Store) (ino : Nat) (offset : Int) (size : Nat) : Option (FsOut (List Nat)) :=
  if offset < 0 then some ⟨Except.error Errno.EINVAL, s⟩
  else (Driver.read s ino offset.toNat size).map (fun o => ⟨o.res, o.store⟩)

/-- `Elmerfs::write` (src/fs.rs:283-304): a negative offset is answered
with EINVAL on the reply before anything reaches the driver; on success the
reply is the number of bytes written. -/
def fsWrite (s : Store) (t ino : Nat) (data : List Nat) (offset : Int) : Option (FsOut Nat) :=
  if offset < 0 then some ⟨Except.error Errno.EINVAL, s⟩
  else
    let o := Driver.write s t ino data offset.toNat
    some ⟨o.res.map (fun _ => data.length), o.store⟩

/-- `Elmerfs::readdir` (src/fs.rs:130-152): no offset check — the offset is
passed to the driver as is, whose `assert!(offset >= 0)` panics on a
negative value (modelled by `none`). -/
def fsReaddir (s : Store) (ino : Nat) (offset : Int) : Option (FsOut (List ReadDirEntry)) :=
  (Driver.readdir s ino offset).map (fun o => ⟨o.res, o.store⟩)

/-- The operation enum `Op` (src/op.rs:10-29).  The payload structs carry
only kernel reply handles and raw arguments and are irrelevant to which
variant is dispatched, so the variants are modelled bare. -/
inductive Op where
  | getattr
  | setattr
  | lookup
  | opendir
  | releasedir
  | readdir
  | mkdir
  | rmdir
  | mknod
  | unlink
  | «open»
  | release
  | write
  | read
  | rename
  | link
  | symlink
  | readlink
  deriving DecidableEq, Repr

/-- `Op::name` (src/op.rs:32-53). -/
def Op.opName : Op → String
  | Op.getattr => "getattr"
  | Op.setattr => "setattr"
  | Op.lookup => "lookup"
  | Op.opendir => "opendir"
  | Op.releasedir => "releasedir"
  | Op.readdir => "readdir"
  | Op.mkdir => "mkdir"
  | Op.rmdir => "rmdir"
  | Op.mknod => "mknod"
  | Op.unlink => "unlink"
  | Op.«open» => "open"
  | Op.release => "release"
  | Op.write => "write"
  | Op.read => "read"
  | Op.rename => "rename"
  | Op.link => "link"
  | Op.symlink => "symlink"
  | Op.readlink => "readlink"

/-- The driver methods a dispatch arm can invoke. -/
inductive DriverMethod where
  | getattr
  | lookup
  | opendir
  | releasedir
  | readdir
  | mkdir
  deriving DecidableEq, Repr

/-- The dispatch loop `drive` (src/dispatch.rs:27-120): which driver method
the spawned task of each received operation invokes.  The `match op` of the
source has arms only for `GetAttr`, `Lookup`, `OpenDir`, `ReleaseDir`,
`ReadDir` and `MkDir`; the remaining twelve variants of `Op` have no arm in
`drive` and are returned as `none`. -/
def driveDispatch : Op → Option DriverMethod
  | Op.getattr => some DriverMethod.getattr
  | Op.lookup => some DriverMethod.lookup
  | Op.opendir => some DriverMethod.opendir
  | Op.releasedir => some DriverMethod.releasedir
  | Op.readdir => some DriverMethod.readdir
  | Op.mkdir => some DriverMethod.mkdir
  | _ => none

/-- The empty backend. -/
def emptyStore : Store :=
  ⟨fun _ => none, fun _ => none, fun _ => none, fun _ _ => none⟩

/-- The backend right after `Driver::make_root` on an empty store. -/
def rootStore : Store := (Driver.makeRoot emptyStore 0).store

/-- The bytes of "hello". -/
def helloBytes : List Nat := [104, 101, 108, 108, 111]

/-- `mknod(owner 0:0, mode 0o644, parent 1, name "f")` on the fresh root
store, allocating ino 2: one regular file of size 0. -/
def fileStore : Store := (Driver.mknod rootStore 0 2 ⟨0, 0⟩ 0o644 1 "f" 0).store

/-- `write(ino 2, "hello", offset 0)` on `fileStore`: the file holds five
bytes and has size 5. -/
def helloStore : Store := (Driver.write fileStore 0 2 helloBytes 0).store

/-- `setattr(ino 2, size := 2)` on `helloStore`: the recorded size shrinks
to 2 while page 0 still holds the five written bytes. -/
def shrunkStore : Store :=
  (Driver.setattr helloStore 2 none none none (some 2) none none).store

/-- The file inode of `fileStore` as the driver decodes it. -/
def fileInode : Inode := ⟨2, Kind.Regular, 1, 0, 0, 0, ⟨0, 0⟩, 0o644, 0, 1⟩

/-- A store holding the root directory plus one symlink inode (ino 2,
entry "s", target "/etc/passwd"), as `Driver::symlink` would create it:
used to exercise `link` on a non-regular inode. -/
def symStore : Store :=
  { inodes := fun i =>
      if i = 1 then some ⟨some (Kind.Directory, 1), some ⟨0o777, ⟨0, 0⟩, 1, 0, 0, 0, 3⟩⟩
      else if i = 2 then some ⟨some (Kind.Symlink, 1), some ⟨0o644, ⟨0, 0⟩, 11, 0, 0, 0, 1⟩⟩
      else none
    dirs := fun i =>
      if i = 1 then some [⟨".", 1, Kind.Directory⟩, ⟨"s", 2, Kind.Symlink⟩] else none
    symlinks := fun i => if i = 2 then some "/etc/passwd" else none
    pages := fun _ _ => none }

/-- Observation of one directory entry of the committed store, the model of
a `lookup`/`readdir` probe on a single name. -/
def dirGet (s : Store) (dirIno : Nat) (n : String) : Option Entry :=
  (s.dirs dirIno).bind (fun l => entGet l n)

/-- The inode as `Driver::write` rewrites it (src/driver.rs:557-560): times
set to the operation clock, size advanced by `wrote_above_size`. -/
def writtenInode (ind : Inode) (t newSize : Nat) : Inode :=
  { ind with atime := t, mtime := t, size := newSize }

theorem entGet_filter_append (l : List Entry) (e : Entry) :
    entGet ((l.filter (fun x => !(x.name == e.name))) ++ [e]) e.name = some e := by
  induction l with
  | nil => simp [entGet]
  | cons a l ih =>
      by_cases h : a.name = e.name <;> simp [entGet, List.filter_cons, h] at ih ⊢

theorem dirGet_addEntry (s : Store) (d : Nat) (e : Entry) :
    dirGet (dirAddEntry s d e) d e.name = some e := by
  simp only [dirGet, dirAddEntry, updf, if_pos rfl, Option.bind_some]
  exact entGet_filter_append _ e

theorem inodeDecode_eq (s : Store) (ino : Nat) (ind : Inode)
    (h : inodeDecode s ino = some ind) :
    s.inodes ino = some ⟨some (ind.kind, ind.parent), some (statsOf ind)⟩ ∧ ind.ino = ino := by
  unfold inodeDecode at h
  split at h
  next k p st heq =>
    injection h with h2
    subst h2
    exact ⟨heq, rfl⟩
  next => cases h

theorem updateStats_ident (s : Store) (i : Inode) (k : Nat) :
    ((inodeUpdateStats s i).inodes k).bind (fun e => e.ident) =
      (s.inodes k).bind (fun e => e.ident) := by
  unfold inodeUpdateStats updf
  by_cases h : k = i.ino <;> simp [h]

theorem inodeDecode_updateStats_self (s : Store) (i : Inode)
    (h : (s.inodes i.ino).bind (fun e => e.ident) = some (i.kind, i.parent)) :
    inodeDecode (inodeUpdateStats s i) i.ino = some i := by
  unfold inodeDecode inodeUpdateStats updf
  simp [h, statsOf]

theorem inodeDecode_updateStats_none (s : Store) (i : Inode)
    (h : (s.inodes i.ino).bind (fun e => e.ident) = none) :
    inodeDecode (inodeUpdateStats s i) i.ino = none := by
  unfold inodeDecode inodeUpdateStats updf
  simp [h]

theorem inodeDecode_dirAddEntry (s : Store) (d : Nat) (e : Entry) (k : Nat) :
    inodeDecode (dirAddEntry s d e) k = inodeDecode s k := rfl

theorem inodeDecode_dirRemoveEntry (s : Store) (d : Nat) (n : String) (k : Nat) :
    inodeDecode (dirRemoveEntry s d n) k = inodeDecode s k := rfl

theorem writeNewSize_eq_max (size offset len : Nat) (h : size < U64) :
    writeNewSize size offset len = max size ((offset + len) % U64) := by
  have hm : (offset + len) % U64 < U64 := Nat.mod_lt _ (by norm_num [U64])
  unfold writeNewSize wroteAboveSize
  rcases Nat.le_total size ((offset + len) % U64) with hle | hle
  · rw [Nat.add_sub_cancel' hle, Nat.max_eq_right hle, Nat.mod_eq_of_lt hm]
  · rw [Nat.sub_eq_zero_of_le hle, Nat.add_zero, Nat.max_eq_left hle, Nat.mod_eq_of_lt h]

/-- C1 (counterexample): the dispatch loop `drive` (src/dispatch.rs:27-120)
has no arm for `Op::Rename`, so the claim that all 18 operations of the
operation enum are handled by the dispatch loop fails at the concrete
operation `rename`. -/
theorem drive_does_not_handle_rename : driveDispatch Op.rename = none := rfl

/-- C1 (amended): the dispatch loop handles exactly six of the 18
operations — getattr, lookup, opendir, releasedir, readdir and mkdir — by
spawning a task that invokes the corresponding driver method; the twelve
remaining variants of the operation enum have no arm in `drive`. -/
theorem drive_handles_exactly_six :
    driveDispatch Op.getattr = some DriverMethod.getattr ∧
    driveDispatch Op.lookup = some DriverMethod.lookup ∧
    driveDispatch Op.opendir = some DriverMethod.opendir ∧
    driveDispatch Op.releasedir = some DriverMethod.releasedir ∧
    driveDispatch Op.readdir = some DriverMethod.readdir ∧
    driveDispatch Op.mkdir = some DriverMethod.mkdir ∧
    driveDispatch Op.setattr = none ∧
    driveDispatch Op.rmdir = none ∧
    driveDispatch Op.mknod = none ∧
    driveDispatch Op.unlink = none ∧
    driveDispatch Op.«open» = none ∧
    driveDispatch Op.release = none ∧
    driveDispatch Op.write = none ∧
    driveDispatch Op.read = none ∧
    driveDispatch Op.rename = none ∧
    driveDispatch Op.link = none ∧
    driveDispatch Op.symlink = none ∧
    driveDispatch Op.readlink = none := by decide

/-- C2 (code bug, evaluated at the failing input): on a store whose root
directory already holds the entry "f", `link(2, 1, "f")` returns EEXIST
while its transaction is left open — the source returns on this path
without calling `tx.abort()` (src/driver.rs:758-760), unlike every other
validation-failure path of the driver. -/
theorem link_eexist_leaves_transaction_open :
    (Driver.link fileStore 4 2 1 "f").res = Except.error Errno.EEXIST ∧
    (Driver.link fileStore 4 2 1 "f").fate = TxFate.leftOpen := ⟨rfl, rfl⟩

/-- C3 (code bug, evaluated at the failing input): after
`mknod(1, "f")`, `write(2, "hello", 0)` and `setattr(2, size := 2)`, the
inode's recorded size is 2, yet `read(2, 0, 10)` returns all five stored
bytes: the source computes `truncated_len = min(size, offset+len) - offset`
but uses it only for `Vec::with_capacity` and returns the page reader's
buffer for the full requested length (src/driver.rs:578-585), so bytes at
and past the recorded size are returned. -/
theorem read_returns_bytes_past_size :
    (inodeDecode shrunkStore 2).map (fun i => i.size) = some 2 ∧
    (Driver.read shrunkStore 2 0 10).map (fun o => o.res) =
      some (Except.ok helloBytes) := ⟨rfl, rfl⟩

/-- C7: `make_root` is idempotent — when the root inode decodes, the
transaction commits with zero updates issued and the store is returned
unchanged; only when the root is absent does it create the root inode
(kind Directory, parent 1, mode 0o777, size 0, nlink 3) and the root
directory entity. -/
theorem make_root_idempotent :
    ∀ (s : Store) (t : Nat),
      ((inodeDecode s ROOT_INO).isSome = true →
        Driver.makeRoot s t = ⟨s, TxFate.committed, 0⟩) ∧
      (inodeDecode s ROOT_INO = none →
        (Driver.makeRoot s t).fate = TxFate.committed ∧
        (Driver.makeRoot s t).updatesIssued = 2 ∧
        inodeDecode (Driver.makeRoot s t).store ROOT_INO =
          some ⟨ROOT_INO, Kind.Directory, 1, t, t, t, ⟨0, 0⟩, 0o777, 0, 3⟩ ∧
        (Driver.makeRoot s t).store.dirs ROOT_INO =
          some [⟨".", ROOT_INO, Kind.Directory⟩]) := by
  intro s t
  constructor
  · intro h
    rcases hr : inodeDecode s ROOT_INO with _ | i
    · rw [hr] at h; cases h
    · unfold Driver.makeRoot
      rw [hr]
  · intro h
    unfold Driver.makeRoot
    rw [h]
    refine ⟨rfl, rfl, ?_, ?_⟩
    · simp [inodeDecode, inodeCreate, dirCreate, updf, statsOf, ROOT_INO]
    · simp [inodeCreate, dirCreate, updf, ROOT_INO]

/-- C7 (witness): running `make_root` on a store that already holds the
root commits without touching the store. -/
theorem make_root_idempotent_witness :
    Driver.makeRoot rootStore 3 = ⟨rootStore, TxFate.committed, 0⟩ :=
  (make_root_idempotent rootStore 3).1 (by decide)

/-- C8 (counterexample): a negative readdir offset is not answered with
EINVAL — the driver's `assert!(offset >= 0)` (src/driver.rs:270) panics,
modelled by `none`. -/
theorem readdir_negative_offset_panics : fsReaddir fileStore 2 (-1) = none := rfl

/-- C8 (amended): a negative offset on read and write is answered with the
EINVAL errno before anything reaches the driver, with no backend mutation;
a negative offset on readdir instead trips the driver's assertion and
panics (no EINVAL reply). -/
theorem negative_offset_einval_except_readdir :
    ∀ (s : Store) (ino t : Nat) (offset : Int) (len : Nat) (data : List Nat),
      offset < 0 →
      fsRead s ino offset len = some ⟨Except.error Errno.EINVAL, s⟩ ∧
      fsWrite s t ino data offset = some ⟨Except.error Errno.EINVAL, s⟩ ∧
      fsReaddir s ino offset = none := by
  intro s ino t offset len data h
  refine ⟨?_, ?_, ?_⟩ <;> simp [fsRead, fsWrite, fsReaddir, Driver.readdir, h]

/-- C8 (witness): the amended statement at offset -1 on the concrete
one-file store. -/
theorem negative_offset_witness :
    fsRead fileStore 2 (-1) 4 = some ⟨Except.error Errno.EINVAL, fileStore⟩ ∧
    fsWrite fileStore 0 2 helloBytes (-1) = some ⟨Except.error Errno.EINVAL, fileStore⟩ ∧
    fsReaddir fileStore 2 (-1) = none :=
  negative_offset_einval_except_readdir fileStore 2 0 (-1) 4 helloBytes (by decide)

/-- C10 (counterexample): reading at an offset past the recorded size
(size 2, offset 10) underflows the u64 subtraction
`min(size, offset+len) - offset` (src/driver.rs:580) and crashes, so the
claim that the subtraction never underflows — including offset > size —
fails. -/
theorem read_offset_past_size_crashes : Driver.read shrunkStore 2 10 4 = none := rfl

/-- C10 (amended): for reads on an existing inode with offset ≤ size the
subtraction does not underflow and evaluation is total. -/
theorem read_total_when_offset_le_size :
    ∀ (s : Store) (ino offset len : Nat) (ind : Inode),
      inodeDecode s ino = some ind → offset ≤ ind.size →
      (Driver.read s ino offset len).isSome = true := by
  intro s ino offset len ind h hle
  unfold Driver.read
  rw [h]
  have hlt : ¬ (min ind.size (offset + len) < offset) := by omega
  simp [hlt]

/-- C10 (witness): a read at offset 1 ≤ size 2 evaluates. -/
theorem read_total_witness : (Driver.read shrunkStore 2 1 3).isSome = true :=
  read_total_when_offset_le_size shrunkStore 2 1 3
    ⟨2, Kind.Regular, 1, 0, 0, 0, ⟨0, 0⟩, 0o644, 2, 1⟩ (by decide) (by decide)

/-- C9: every entry returned by readdir carries the directory's own ino
argument as its `ino` field (src/driver.rs:284), not the inode number
stored in the entry. -/
theorem readdir_entries_carry_dir_ino :
    ∀ (s : Store) (ino : Nat) (offset : Int) (out : OpOut (List ReadDirEntry))
      (r : List ReadDirEntry) (e : ReadDirEntry),
      Driver.readdir s ino offset = some out → out.res = Except.ok r → e ∈ r →
      e.ino = ino := by
  intro s ino offset out r e hout hres hmem
  unfold Driver.readdir at hout
  split at hout
  · cases hout
  · split at hout
    · injection hout with h2
      subst h2
      cases hres
    · injection hout with h2
      subst h2
      injection hres with h3
      subst h3
      rcases List.mem_map.mp hmem with ⟨a, _, ha⟩
      rw [← ha]

/-- C9 (witness): on the one-file store, the entry "f" of directory 1 is
reported with ino 1. -/
theorem readdir_entries_carry_dir_ino_witness :
    (⟨1, Kind.Regular, "f"⟩ : ReadDirEntry).ino = 1 :=
  readdir_entries_carry_dir_ino fileStore 1 0
    ⟨Except.ok [⟨1, Kind.Directory, "."⟩, ⟨1, Kind.Regular, "f"⟩], fileStore, TxFate.committed⟩
    [⟨1, Kind.Directory, "."⟩, ⟨1, Kind.Regular, "f"⟩] ⟨1, Kind.Regular, "f"⟩
    rfl rfl (by decide)

/-- C4: the committed size of `write(ino, bytes, offset)` equals
`max(old_size, offset + bytes.len())`: the source's
`old_size + (offset + bytes.len()).saturating_sub(old_size)` equals that
maximum for every u64 value of the operands (the addition taken with u64
wrapping), and consequently a write entirely below the current size leaves
the size unchanged. -/
theorem write_size_is_max :
    (∀ size offset len : Nat, size < U64 →
        writeNewSize size offset len = max size ((offset + len) % U64)) ∧
    (∀ (s : Store) (t ino offset : Nat) (bytes : List Nat) (ind : Inode),
        inodeDecode s ino = some ind → ind.size < U64 →
        inodeDecode (Driver.write s t ino bytes offset).store ino =
          some (writtenInode ind t (max ind.size ((offset + bytes.length) % U64)))) := by
  constructor
  · intro size offset len h
    exact writeNewSize_eq_max size offset len h
  · intro s t ino offset bytes ind h hsz
    obtain ⟨hent, hino⟩ := inodeDecode_eq s ino ind h
    unfold Driver.write
    rw [h]
    simp only []
    rw [← hino, ← writeNewSize_eq_max ind.size offset bytes.length hsz]
    have hid : (({ s with pages := pagesWrite s.pages ino offset bytes } : Store).inodes
        ind.ino).bind (fun e => e.ident) = some (ind.kind, ind.parent) := by
      rw [hino]
      simp [hent]
    have hres := inodeDecode_updateStats_self
      { s with pages := pagesWrite s.pages ino offset bytes }
      (writtenInode ind t (writeNewSize ind.size offset bytes.length))
      (by simpa [writtenInode] using hid)
    simpa [writtenInode, hino] using hres

/-- C4 (witness): writing five bytes at offset 3 into the empty file of
`fileStore` commits size `max 0 8 = 8`. -/
theorem write_size_is_max_witness :
    inodeDecode (Driver.write fileStore 7 2 helloBytes 3).store 2 =
      some (writtenInode fileInode 7 (max fileInode.size ((3 + helloBytes.length) % U64))) :=
  write_size_is_max.2 fileStore 7 2 3 helloBytes fileInode (by decide) (by decide)

/-- C5 (counterexample): linking the symlink inode 2 under the name "b"
adds an entry whose recorded kind is Regular (src/driver.rs:771 hardcodes
`Kind::Regular`), not the Symlink kind of the linked inode, falsifying the
claim that the entry added by link carries the kind of the linked inode. -/
theorem link_symlink_entry_kind_regular :
    (inodeDecode symStore 2).map (fun i => i.kind) = some Kind.Symlink ∧
    dirGet (Driver.link symStore 5 2 1 "b").store 1 "b" =
      some ⟨"b", 2, Kind.Regular⟩ := ⟨rfl, rfl⟩

/-- C5 (amended): the entry added by a committing `link` always carries
kind Regular (so it matches the linked inode's kind only when that inode is
Regular), while the entry re-added by `rename` carries the source inode's
original kind. -/
theorem link_always_regular_rename_preserves_kind :
    (∀ (s : Store) (t ino p : Nat) (n : String),
        (Driver.link s t ino p n).fate = TxFate.committed →
        dirGet (Driver.link s t ino p n).store p n = some ⟨n, ino, Kind.Regular⟩) ∧
    (∀ (s : Store) (t p np : Nat) (n nn : String) (pl : List Entry) (e : Entry) (ind : Inode),
        s.dirs p = some pl → entGet pl n = some e → inodeDecode s e.ino = some ind →
        (Driver.rename s t p n np nn).fate = TxFate.committed →
        dirGet (Driver.rename s t p n np nn).store np nn = some ⟨nn, e.ino, ind.kind⟩) := by
  constructor
  · intro s t ino p n hc
    rcases h1 : inodeDecode s ino with _ | inode0
    · simp only [Driver.link, h1] at hc
      cases hc
    · rcases h2 : inodeDecode s p with _ | parent
      · simp only [Driver.link, h1, h2] at hc
        cases hc
      · rcases h3 : s.dirs p with _ | entries
        · simp only [Driver.link, h1, h2, h3] at hc
          cases hc
        · rcases h4 : entGet entries n with _ | e0
          · simp only [Driver.link, h1, h2, h3, h4, Option.isSome_none, Bool.false_eq_true,
              if_false]
            exact dirGet_addEntry _ p ⟨n, ino, Kind.Regular⟩
          · simp only [Driver.link, h1, h2, h3, h4, Option.isSome_some, if_true] at hc
            cases hc
  · intro s t p np n nn pl e ind hd he hi hc
    rcases h1 : inodeDecode s p with _ | parent
    · simp only [Driver.rename, h1] at hc
      cases hc
    rcases h2 : inodeDecode s np with _ | newParent
    · simp only [Driver.rename, h1, h2] at hc
      cases hc
    rcases h4 : s.dirs np with _ | nl
    · simp only [Driver.rename, h1, h2, hd, h4] at hc
      cases hc
    simp only [Driver.rename, h1, h2, hd, h4, he, hi]
    exact dirGet_addEntry _ np ⟨nn, e.ino, ind.kind⟩

/-- C5 (witness): the amended statement at the symlink link of `symStore`
and at a committing rename on `fileStore`. -/
theorem link_always_regular_witness :
    dirGet (Driver.link symStore 5 2 1 "b").store 1 "b" = some ⟨"b", 2, Kind.Regular⟩ ∧
    dirGet (Driver.rename fileStore 9 1 "f" 1 "f").store 1 "f" =
      some ⟨"f", 2, Kind.Regular⟩ :=
  ⟨link_always_regular_rename_preserves_kind.1 symStore 5 2 1 "b" (by decide),
   link_always_regular_rename_preserves_kind.2 fileStore 9 1 1 "f" "f"
     [⟨".", 1, Kind.Directory⟩, ⟨"f", 2, Kind.Regular⟩] ⟨"f", 2, Kind.Regular⟩ fileInode
     (by decide) (by decide) (by decide) (by decide)⟩

/-- C6 (counterexample): `rename(1, "f", 1, "f")` on the one-file store —
same parent, same name, a regular file with nlink 1 — succeeds and keeps
the same readdir-visible entry, but the target-removal rule of rename
(src/driver.rs:671-684) removes inode 2 and the final `update_stats`
recreates only its mutable fields, so the inode entity no longer decodes;
this falsifies the claim that the inode entity itself still exists
afterward. -/
theorem rename_self_removes_inode_entity :
    (Driver.rename fileStore 9 1 "f" 1 "f").res = Except.ok () ∧
    dirGet (Driver.rename fileStore 9 1 "f" 1 "f").store 1 "f" =
      some ⟨"f", 2, Kind.Regular⟩ ∧
    inodeDecode (Driver.rename fileStore 9 1 "f" 1 "f").store 2 = none := ⟨rfl, rfl, rfl⟩

/-- C6 (amended): a same-parent same-name rename of an existing entry
succeeds and the same entry (same name, same ino, the source inode's kind)
remains visible to readdir; but when the target-removal rules fire — the
target is an empty directory or has nlink 1 — the inode entity is removed
and only its stats are rewritten, so it no longer decodes; only when
neither rule fires does the inode entity survive (with atime set to the
operation clock). -/
theorem rename_self_entry_remains :
    ∀ (s : Store) (t p : Nat) (n : String) (pe : Inode) (pl : List Entry) (e : Entry)
      (ind : Inode),
      inodeDecode s p = some pe → s.dirs p = some pl → entGet pl n = some e →
      inodeDecode s e.ino = some ind →
      (Driver.rename s t p n p n).res = Except.ok () ∧
      dirGet (Driver.rename s t p n p n).store p n = some ⟨n, e.ino, ind.kind⟩ ∧
      (((ind.kind = Kind.Directory ∧ ind.size = 0) ∨ ind.nlink = 1) →
        inodeDecode (Driver.rename s t p n p n).store e.ino = none) ∧
      (¬ (ind.kind = Kind.Directory ∧ ind.size = 0) → ind.nlink ≠ 1 →
        inodeDecode (Driver.rename s t p n p n).store e.ino =
          some { ind with atime := t }) := by
  intro s t p n pe pl e ind hp hd he hi
  obtain ⟨hent, hino⟩ := inodeDecode_eq s e.ino ind hi
  refine ⟨?_, ?_, ?_, ?_⟩
  · simp only [Driver.rename, hp, hd, he, Option.some_bind, hi]
  · simp only [Driver.rename, hp, hd, he, Option.some_bind, hi]
    exact dirGet_addEntry _ p ⟨n, e.ino, ind.kind⟩
  · intro hrule
    simp only [Driver.rename, hp, hd, he, Option.some_bind, hi]
    by_cases c1 : ind.kind = Kind.Directory ∧ ind.size = 0
    · rw [if_pos c1]
      rw [← hino]
      rw [inodeDecode_dirAddEntry, inodeDecode_dirRemoveEntry]
      apply inodeDecode_updateStats_none
      rw [updateStats_ident, updateStats_ident]
      simp [inodeRemove, dirRemove, dirRemoveEntry, updf, hino]
    · rcases hrule with hrule | c2
      · exact absurd hrule c1
      · rw [if_neg c1, if_pos c2]
        rw [← hino]
        rw [inodeDecode_dirAddEntry, inodeDecode_dirRemoveEntry]
        apply inodeDecode_updateStats_none
        rw [updateStats_ident, updateStats_ident]
        simp [inodeRemove, dirRemoveEntry, symlinkRemove, updf, hino]
  · intro hc1 hc2
    simp only [Driver.rename, hp, hd, he, Option.some_bind, hi]
    rw [if_neg hc1, if_neg hc2]
    rw [← hino]
    rw [inodeDecode_dirAddEntry, inodeDecode_dirRemoveEntry]
    apply inodeDecode_updateStats_self
    rw [updateStats_ident, updateStats_ident]
    rw [hino]
    simp [hent]

/-- C6 (witness): the amended statement on the one-file store — the entry
survives the self-rename while the nlink-1 rule removes the inode. -/
theorem rename_self_entry_remains_witness :
    dirGet (Driver.rename fileStore 9 1 "f" 1 "f").store 1 "f" =
      some ⟨"f", 2, Kind.Regular⟩ ∧
    inodeDecode (Driver.rename fileStore 9 1 "f" 1 "f").store 2 = none :=
  ⟨(rename_self_entry_remains fileStore 9 1 "f"
      ⟨1, Kind.Directory, 1, 0, 0, 0, ⟨0, 0⟩, 0o777, 1, 3⟩
      [⟨".", 1, Kind.Directory⟩, ⟨"f", 2, Kind.Regular⟩] ⟨"f", 2, Kind.Regular⟩ fileInode
      (by decide) (by decide) (by decide) (by decide)).2.1,
   (rename_self_entry_remains fileStore 9 1 "f"
      ⟨1, Kind.Directory, 1, 0, 0, 0, ⟨0, 0⟩, 0o777, 1, 3⟩
      [⟨".", 1, Kind.Directory⟩, ⟨"f", 2, Kind.Regular⟩] ⟨"f", 2, Kind.Regular⟩ fileInode
      (by decide) (by decide) (by decide) (by decide)).2.2.1 (Or.inr (by decide))⟩
